import Mathlib

/-!
Verification of the `Builtin` manual deserializer (src/src/lib.rs).

The source implements `Deserialize` for `Builtin` by hand: a `FieldVisitor`
resolving key strings to one of three recognized fields, and a
`BuiltinVisitor::visit_map` loop that fills three optional slots
(`name`, `pricing`, `at`), rejecting duplicate and unknown keys during the
traversal and checking for missing slots after it.  `PricingAt` and
`Pricing` use the derived serde implementations.

We embed the decoder shallowly over a JSON-like document model: maps are
ordered association lists (order and key multiplicity are observable, as
they are for a serde `MapAccess`), numbers are the non-negative integers
the `u64` fields require.  Fallible decoding steps return
`Except DeError`, mirroring serde's `Result<_, D::Error>`; the `?`
propagation of the source is modelled by matching on the `Except` value.
-/

namespace Lib

/-- The document model: a self-describing JSON-like tree.  `num` models the
non-negative integer scalars used by the `u64` fields; `obj` keeps key/value
pairs in input order, as a serde `MapAccess` presents them. -/
inductive Json where
  | str : String → Json
  | num : Nat → Json
  | arr : List Json → Json
  | obj : List (String × Json) → Json
deriving Repr

/-- Decode errors, following serde's error taxonomy: `unknown_field` carries
the offending key and the expected-name list, `duplicate_field` and
`missing_field` carry the field name, `invalidType` models serde's
"invalid type: X, expected Y" shape-mismatch errors, and `invalidLength`
models serde's length errors for sequence-shaped structs. -/
inductive DeError where
  | unknownField : String → List String → DeError
  | duplicateField : String → DeError
  | missingField : String → DeError
  | invalidType : String → String → DeError
  | invalidLength : Nat → String → DeError
deriving DecidableEq, Repr

/-- Deserializer for `u64` on the document model: accepts a non-negative
integer scalar, rejects every other shape with an invalid-type error. -/
def deU64 : Json → Except DeError Nat
  | .num n => .ok n
  | .str _ => .error (.invalidType "string" "u64")
  | .arr _ => .error (.invalidType "sequence" "u64")
  | .obj _ => .error (.invalidType "map" "u64")

/-- Deserializer for `String` on the document model. -/
def deString : Json → Except DeError String
  | .str s => .ok s
  | .num _ => .error (.invalidType "integer" "a string")
  | .arr _ => .error (.invalidType "sequence" "a string")
  | .obj _ => .error (.invalidType "map" "a string")

/-- Struct `PricingAt { price: u64, at: u64 }` (src/src/lib.rs lines 11-15). -/
structure PricingAt where
  price : Nat
  «at» : Nat
deriving DecidableEq, Repr

/-- Struct `Pricing { price: u64 }` (src/src/lib.rs lines 6-9), the legacy
price-only shape.  Declared by the source but never produced by the
`Builtin` decoder. -/
structure Pricing where
  price : Nat
deriving DecidableEq, Repr

/-- Slot state of the derived `PricingAt` deserializer: one optional slot
per declared field. -/
structure PASlots where
  price? : Option Nat
  at? : Option Nat
deriving DecidableEq, Repr

/-- One key/value step of the derived `PricingAt` deserializer.  The derive
rejects a duplicate of a recognized key before reading its value and —
having no `deny_unknown_fields` attribute — skips an unrecognized key
together with its value (`__Field::__ignore` / `IgnoredAny`). -/
def paEntry (s : PASlots) (k : String) (v : Json) : Except DeError PASlots :=
  if k = "price" then
    match s.price? with
    | some _ => .error (.duplicateField "price")
    | none =>
      match deU64 v with
      | .error e => .error e
      | .ok n => .ok { s with price? := some n }
  else if k = "at" then
    match s.at? with
    | some _ => .error (.duplicateField "at")
    | none =>
      match deU64 v with
      | .error e => .error e
      | .ok n => .ok { s with at? := some n }
  else
    .ok s

/-- The key/value loop of the derived `PricingAt` deserializer. -/
def paEntries : List (String × Json) → PASlots → Except DeError PASlots
  | [], s => .ok s
  | (k, v) :: rest, s =>
    match paEntry s k v with
    | .error e => .error e
    | .ok s₁ => paEntries rest s₁

/-- The missing-field check after the `PricingAt` loop, in field declaration
order (`price`, then `at`), followed by construction. -/
def paBuild (s : PASlots) : Except DeError PricingAt :=
  match s.price? with
  | none => .error (.missingField "price")
  | some price =>
    match s.at? with
    | none => .error (.missingField "at")
    | some «at» => .ok ⟨price, «at»⟩

/-- The derived `Deserialize` for `PricingAt`: a map is traversed by the
slot loop; a two-element sequence is accepted positionally (serde's derived
`visit_seq`), any other length is a length error; scalars are type errors. -/
def dePricingAt : Json → Except DeError PricingAt
  | .obj kvs =>
    match paEntries kvs ⟨none, none⟩ with
    | .error e => .error e
    | .ok s => paBuild s
  | .arr [v₁, v₂] =>
    match deU64 v₁ with
    | .error e => .error e
    | .ok p =>
      match deU64 v₂ with
      | .error e => .error e
      | .ok a => .ok ⟨p, a⟩
  | .arr l => .error (.invalidLength l.length "struct PricingAt with 2 elements")
  | .str _ => .error (.invalidType "string" "struct PricingAt")
  | .num _ => .error (.invalidType "integer" "struct PricingAt")

/-- The element loop of `Vec<PricingAt>`'s deserializer: decode each
element in input order, short-circuiting on the first element error. -/
def decodeElems : List Json → Except DeError (List PricingAt)
  | [] => .ok []
  | e :: rest =>
    match dePricingAt e with
    | .error err => .error err
    | .ok r =>
      match decodeElems rest with
      | .error err => .error err
      | .ok rs => .ok (r :: rs)

/-- Deserializer for `Vec<PricingAt>`: requires a sequence; a map is the
"invalid type: map, expected a sequence" shape mismatch. -/
def deVecPricingAt : Json → Except DeError (List PricingAt)
  | .arr es => decodeElems es
  | .obj _ => .error (.invalidType "map" "a sequence")
  | .str _ => .error (.invalidType "string" "a sequence")
  | .num _ => .error (.invalidType "integer" "a sequence")

/-- The `Field` enum of the manual `Builtin` deserializer
(src/src/lib.rs lines 29-33). -/
inductive Field where
  | name
  | pricing
  | «at»
deriving DecidableEq, Repr

/-- The serde field name of each `Field` variant. -/
def Field.fname : Field → String
  | .name => "name"
  | .pricing => "pricing"
  | .«at» => "at"

/-- Constant `FIELDS` (src/src/lib.rs line 122): the accepted-name list carried by
unknown-field errors. -/
def FIELDS : List String := ["name", "pricing", "at"]

/-- Function `FieldVisitor::visit_str` (src/src/lib.rs lines 49-59): resolve a key
string to a `Field`, or fail with `unknown_field` carrying the key and
`FIELDS`. -/
def fieldFromString (s : String) : Except DeError Field :=
  if s = "name" then .ok .name
  else if s = "pricing" then .ok .pricing
  else if s = "at" then .ok .«at»
  else .error (.unknownField s FIELDS)

/-- Struct `Builtin` (src/src/lib.rs lines 17-22). -/
structure Builtin where
  name : String
  pricing : List PricingAt
  «at» : Nat
deriving DecidableEq, Repr

/-- The three optional slots of `BuiltinVisitor::visit_map`
(src/src/lib.rs lines 79-81). -/
structure Slots where
  name? : Option String
  pricing? : Option (List PricingAt)
  at? : Option Nat
deriving DecidableEq, Repr

/-- The all-empty slot state the loop starts from. -/
def initSlots : Slots := ⟨none, none, none⟩

/-- The body of the `Builtin` visitor's field dispatch
(src/src/lib.rs lines 83-102): a duplicate of an already-filled slot is
rejected before the value is read; otherwise the value is decoded at the
field's type and the slot filled. -/
def applyField (s : Slots) (f : Field) (v : Json) : Except DeError Slots :=
  match f with
  | .name =>
    match s.name? with
    | some _ => .error (.duplicateField "name")
    | none =>
      match deString v with
      | .error e => .error e
      | .ok x => .ok { s with name? := some x }
  | .pricing =>
    match s.pricing? with
    | some _ => .error (.duplicateField "pricing")
    | none =>
      match deVecPricingAt v with
      | .error e => .error e
      | .ok x => .ok { s with pricing? := some x }
  | .«at» =>
    match s.at? with
    | some _ => .error (.duplicateField "at")
    | none =>
      match deU64 v with
      | .error e => .error e
      | .ok x => .ok { s with at? := some x }

/-- One iteration of the `while let Some(key) = map.next_key()?` loop:
the key is resolved first (propagating unknown-field errors), then the
matched arm runs. -/
def processEntry (s : Slots) (k : String) (v : Json) : Except DeError Slots :=
  match fieldFromString k with
  | .error e => .error e
  | .ok f => applyField s f v

/-- The whole key/value loop of `BuiltinVisitor::visit_map`, over the
entries in input order, short-circuiting on the first error. -/
def processEntries : List (String × Json) → Slots → Except DeError Slots
  | [], s => .ok s
  | (k, v) :: rest, s =>
    match processEntry s k v with
    | .error e => .error e
    | .ok s₁ => processEntries rest s₁

/-- The post-loop missing-field checks and construction
(src/src/lib.rs lines 105-118), in source order: `name`, `pricing`, `at`. -/
def buildBuiltin (s : Slots) : Except DeError Builtin :=
  match s.name? with
  | none => .error (.missingField "name")
  | some name =>
    match s.pricing? with
    | none => .error (.missingField "pricing")
    | some pricing =>
      match s.at? with
      | none => .error (.missingField "at")
      | some «at» => .ok ⟨name, pricing, «at»⟩

/-- Function `Builtin::deserialize` (src/src/lib.rs lines 24-124): a map input is
traversed by the visitor loop; the `BuiltinVisitor` implements only
`visit_map`, so every other input shape is an invalid-type error. -/
def deBuiltin : Json → Except DeError Builtin
  | .obj kvs =>
    match processEntries kvs initSlots with
    | .error e => .error e
    | .ok s => buildBuiltin s
  | .str _ => .error (.invalidType "string" "struct Builtin")
  | .num _ => .error (.invalidType "integer" "struct Builtin")
  | .arr _ => .error (.invalidType "sequence" "struct Builtin")

/-- The derived `Serialize` for `PricingAt`: a map with the fields in
declaration order. -/
def encodePricingAt (p : PricingAt) : Json :=
  .obj [("price", .num p.price), ("at", .num p.at)]

/-- Whether the slot of a given field is already populated. -/
def slotFilled : Field → Slots → Bool
  | .name, s => s.name?.isSome
  | .pricing, s => s.pricing?.isSome
  | .«at», s => s.at?.isSome

/-- Empty out the slot of a given field. -/
def clearSlot : Field → Slots → Slots
  | .name, s => { s with name? := none }
  | .pricing, s => { s with pricing? := none }
  | .«at», s => { s with at? := none }

theorem fieldFromString_name : fieldFromString "name" = .ok .name := rfl

theorem fieldFromString_pricing : fieldFromString "pricing" = .ok .pricing := rfl

theorem fieldFromString_at : fieldFromString "at" = .ok .«at» := rfl

theorem fieldFromString_fname (f : Field) :
    fieldFromString (Field.fname f) = .ok f := by
  cases f <;> rfl

theorem fieldFromString_ok_eq {k : String} {g : Field}
    (h : fieldFromString k = .ok g) : k = Field.fname g := by
  unfold fieldFromString at h
  split_ifs at h with h1 h2 h3
  · injection h with h; subst h; exact h1
  · injection h with h; subst h; exact h2
  · injection h with h; subst h; exact h3

theorem fieldFromString_not_mem {k : String} (hk : k ∉ FIELDS) :
    fieldFromString k = .error (.unknownField k FIELDS) := by
  simp only [FIELDS, List.mem_cons, List.not_mem_nil, or_false, not_or] at hk
  obtain ⟨h1, h2, h3⟩ := hk
  simp [fieldFromString, h1, h2, h3]

/-- The visitor loop splits at an append: the suffix runs from the state
the prefix produced, and a prefix error is the loop's result. -/
theorem processEntries_append (l₁ l₂ : List (String × Json)) (s : Slots) :
    processEntries (l₁ ++ l₂) s =
      match processEntries l₁ s with
      | .error e => .error e
      | .ok s₁ => processEntries l₂ s₁ := by
  induction l₁ generalizing s with
  | nil => rfl
  | cons kv rest ih =>
    obtain ⟨k, v⟩ := kv
    simp only [List.cons_append, processEntries]
    cases processEntry s k v with
    | error e => rfl
    | ok s₁ => exact ih s₁

/-- Decoding inverts the derived `PricingAt` encoding. -/
theorem dePricingAt_encode (p : PricingAt) :
    dePricingAt (encodePricingAt p) = .ok p := by
  cases p
  rfl

/-- The element loop inverts the element-wise encoding. -/
theorem decodeElems_encode (ps : List PricingAt) :
    decodeElems (ps.map encodePricingAt) = .ok ps := by
  induction ps with
  | nil => rfl
  | cons p rest ih => simp [decodeElems, dePricingAt_encode, ih]

/-- Successfully applying a field sets exactly that field's slot and keeps
the others. -/
theorem applyField_ok_slots {g : Field} {s s' : Slots} {v : Json}
    (h : applyField s g v = .ok s') (f : Field) :
    slotFilled f s' = true ↔ (slotFilled f s = true ∨ f = g) := by
  cases g <;>
  · simp only [applyField] at h
    split at h
    · simp at h
    · split at h
      · simp at h
      · simp only [Except.ok.injEq] at h
        subst h
        cases f <;> simp [slotFilled]

/-- Applying a field whose slot is already populated is the duplicate-field
error, whatever the value. -/
theorem applyField_filled {f : Field} {s : Slots} (v : Json)
    (h : slotFilled f s = true) :
    applyField s f v = .error (.duplicateField (Field.fname f)) := by
  cases f <;>
  · simp only [slotFilled, Option.isSome_iff_exists] at h
    obtain ⟨x, hx⟩ := h
    simp [applyField, hx, Field.fname]

/-- A loop iteration can only add to the set of populated slots. -/
theorem processEntry_filled_mono {s s' : Slots} {k : String} {v : Json}
    (h : processEntry s k v = .ok s') (f : Field)
    (hf : slotFilled f s = true) : slotFilled f s' = true := by
  unfold processEntry at h
  cases hk : fieldFromString k with
  | error e => rw [hk] at h; simp at h
  | ok g =>
    rw [hk] at h
    exact (applyField_ok_slots h f).mpr (Or.inl hf)

/-- The loop only adds to the set of populated slots. -/
theorem processEntries_filled_mono :
    ∀ {l : List (String × Json)} {s s' : Slots},
      processEntries l s = .ok s' → ∀ f : Field,
      slotFilled f s = true → slotFilled f s' = true := by
  intro l
  induction l with
  | nil => intro s s' h f hf; simp only [processEntries, Except.ok.injEq] at h; subst h; exact hf
  | cons kv rest ih =>
    intro s s' h f hf
    obtain ⟨k, v⟩ := kv
    simp only [processEntries] at h
    cases hpe : processEntry s k v with
    | error e => rw [hpe] at h; simp at h
    | ok s₁ =>
      rw [hpe] at h
      exact ih h f (processEntry_filled_mono hpe f hf)

/-- After a successful loop over entries containing a recognized field's
key, that field's slot is populated. -/
theorem processEntries_mem_filled (f : Field) :
    ∀ {l : List (String × Json)} {s s' : Slots} {v : Json},
      processEntries l s = .ok s' → (Field.fname f, v) ∈ l →
      slotFilled f s' = true := by
  intro l
  induction l with
  | nil => intro s s' v _ hmem; simp at hmem
  | cons kv rest ih =>
    intro s s' v h hmem
    obtain ⟨k, w⟩ := kv
    simp only [processEntries] at h
    cases hpe : processEntry s k w with
    | error e => rw [hpe] at h; simp at h
    | ok s₁ =>
      rw [hpe] at h
      rcases List.mem_cons.mp hmem with heq | hrest
      · injection heq with hk hv
        subst hk
        unfold processEntry at hpe
        rw [fieldFromString_fname] at hpe
        exact processEntries_filled_mono h f ((applyField_ok_slots hpe f).mpr (Or.inr rfl))
      · exact ih h hrest

/-- Applying a field other than `f` commutes with emptying `f`'s slot. -/
theorem applyField_clear_ne {g f : Field} (hgf : g ≠ f) {s s' : Slots} {v : Json}
    (h : applyField s g v = .ok s') :
    applyField (clearSlot f s) g v = .ok (clearSlot f s') := by
  obtain ⟨n?, p?, a?⟩ := s
  cases g
  case name =>
    cases n? with
    | some x => simp [applyField] at h
    | none =>
      cases hv : deString v with
      | error e => simp [applyField, hv] at h
      | ok x =>
        simp only [applyField, hv] at h
        injection h with h
        subst h
        cases f with
        | name => exact absurd rfl hgf
        | pricing => simp [applyField, clearSlot, hv]
        | «at» => simp [applyField, clearSlot, hv]
  case pricing =>
    cases p? with
    | some x => simp [applyField] at h
    | none =>
      cases hv : deVecPricingAt v with
      | error e => simp [applyField, hv] at h
      | ok x =>
        simp only [applyField, hv] at h
        injection h with h
        subst h
        cases f with
        | name => simp [applyField, clearSlot, hv]
        | pricing => exact absurd rfl hgf
        | «at» => simp [applyField, clearSlot, hv]
  case «at» =>
    cases a? with
    | some x => simp [applyField] at h
    | none =>
      cases hv : deU64 v with
      | error e => simp [applyField, hv] at h
      | ok x =>
        simp only [applyField, hv] at h
        injection h with h
        subst h
        cases f with
        | name => simp [applyField, clearSlot, hv]
        | pricing => simp [applyField, clearSlot, hv]
        | «at» => exact absurd rfl hgf

/-- A loop iteration on a key other than `f`'s commutes with emptying
`f`'s slot. -/
theorem processEntry_clear_ne (f : Field) {s s' : Slots} {k : String} {v : Json}
    (hne : k ≠ Field.fname f) (h : processEntry s k v = .ok s') :
    processEntry (clearSlot f s) k v = .ok (clearSlot f s') := by
  unfold processEntry at h ⊢
  cases hk : fieldFromString k with
  | error e => rw [hk] at h; simp at h
  | ok g =>
    rw [hk] at h
    have hgf : g ≠ f := by
      rintro rfl
      exact hne (fieldFromString_ok_eq hk)
    exact applyField_clear_ne hgf h

/-- A loop iteration on `f`'s own key only fills `f`'s slot: emptying it
afterwards recovers the pre-iteration state with `f`'s slot emptied. -/
theorem processEntry_fname_clear (f : Field) {s s₁ : Slots} {v : Json}
    (h : processEntry s (Field.fname f) v = .ok s₁) :
    clearSlot f s₁ = clearSlot f s := by
  unfold processEntry at h
  rw [fieldFromString_fname] at h
  obtain ⟨n?, p?, a?⟩ := s
  cases f
  case name =>
    cases n? with
    | some x => simp [applyField] at h
    | none =>
      cases hv : deString v with
      | error e => simp [applyField, hv] at h
      | ok x =>
        simp only [applyField, hv] at h
        injection h with h
        subst h
        rfl
  case pricing =>
    cases p? with
    | some x => simp [applyField] at h
    | none =>
      cases hv : deVecPricingAt v with
      | error e => simp [applyField, hv] at h
      | ok x =>
        simp only [applyField, hv] at h
        injection h with h
        subst h
        rfl
  case «at» =>
    cases a? with
    | some x => simp [applyField] at h
    | none =>
      cases hv : deU64 v with
      | error e => simp [applyField, hv] at h
      | ok x =>
        simp only [applyField, hv] at h
        injection h with h
        subst h
        rfl

/-- Running the loop with field `f`'s entries removed from a successful
input reaches the final state with `f`'s slot emptied. -/
theorem processEntries_filter_clear (f : Field) :
    ∀ {l : List (String × Json)} {s s' : Slots},
      processEntries l s = .ok s' →
      processEntries (l.filter (fun kv => kv.1 ≠ Field.fname f)) (clearSlot f s) =
        .ok (clearSlot f s') := by
  intro l
  induction l with
  | nil =>
    intro s s' h
    simp only [processEntries, Except.ok.injEq] at h
    subst h
    rfl
  | cons kv rest ih =>
    intro s s' h
    obtain ⟨k, v⟩ := kv
    simp only [processEntries] at h
    cases hpe : processEntry s k v with
    | error e => rw [hpe] at h; simp at h
    | ok s₁ =>
      rw [hpe] at h
      by_cases hk : k = Field.fname f
      · subst hk
        rw [List.filter_cons_of_neg (by simp)]
        rw [← processEntry_fname_clear f hpe]
        exact ih h
      · rw [List.filter_cons_of_pos (by simpa using hk)]
        simp only [processEntries, processEntry_clear_ne f hk hpe]
        exact ih h

/-- Emptying one slot of a state all of whose slots are populated makes
construction fail with the missing-field error naming that slot's field. -/
theorem buildBuiltin_clear (f : Field) {s : Slots} {b : Builtin}
    (h : buildBuiltin s = .ok b) :
    buildBuiltin (clearSlot f s) = .error (.missingField (Field.fname f)) := by
  obtain ⟨n?, p?, a?⟩ := s
  cases n? <;> cases p? <;> cases a? <;> simp only [buildBuiltin] at h <;>
    first
    | (cases f <;> rfl)
    | simp at h

/-- When every earlier element decodes and one element fails, the element
loop fails with that element's error. -/
theorem decodeElems_error_after {err : DeError} {x : Json}
    (hx : dePricingAt x = .error err) :
    ∀ (pre post : List Json), (∀ e ∈ pre, ∃ r, dePricingAt e = .ok r) →
      decodeElems (pre ++ x :: post) = .error err := by
  intro pre
  induction pre with
  | nil => intro post _; simp [decodeElems, hx]
  | cons e rest ih =>
    intro post hpre
    obtain ⟨r, hr⟩ := hpre e (by simp)
    rw [List.cons_append]
    simp only [decodeElems, hr, ih post (fun e' he' => hpre e' (by simp [he']))]

/-- C1: for every ordered sequence of (price, at) pairs, decoding a document
whose `pricing` value is that sequence encoded as an array of
`{price, at}` objects (with valid `name` and `at` fields) succeeds and
yields a `Builtin` whose `pricing` contains exactly those pairs in input
order, with no reordering or deduplication; in particular the document
`{"name": "bar", "pricing": [{"price": 100, "at": 0}, {"price": 0, "at": 11}], "at": 0}`
decodes to `Builtin{name: "bar", pricing: [PricingAt{100,0}, PricingAt{0,11}], at: 0}`. -/
theorem decode_pricing_sequence_roundtrip :
    (∀ (s : String) (ps : List PricingAt) (a : Nat),
      deBuiltin (.obj [("name", .str s),
          ("pricing", .arr (ps.map encodePricingAt)),
          ("at", .num a)]) = .ok ⟨s, ps, a⟩) ∧
    deBuiltin (.obj [("name", .str "bar"),
        ("pricing", .arr [.obj [("price", .num 100), ("at", .num 0)],
          .obj [("price", .num 0), ("at", .num 11)]]),
        ("at", .num 0)]) = .ok ⟨"bar", [⟨100, 0⟩, ⟨0, 11⟩], 0⟩ := by
  constructor
  · intro s ps a
    simp [deBuiltin, processEntries, processEntry, fieldFromString_name,
      fieldFromString_pricing, fieldFromString_at, applyField, deString, deU64,
      deVecPricingAt, decodeElems_encode, buildBuiltin, initSlots]
  · rfl

/-- C2: for every input document in which a recognized top-level key occurs
again after a successfully traversed prefix already containing it, decoding
fails with a duplicate-field error naming that field, for any value of the
second occurrence — in particular also when it equals the first value. -/
theorem duplicate_field_rejected (f : Field) (l₁ l₂ : List (String × Json))
    (v₁ v₂ : Json) (s : Slots)
    (h₁ : processEntries l₁ initSlots = .ok s)
    (hmem : (Field.fname f, v₁) ∈ l₁) :
    deBuiltin (.obj (l₁ ++ (Field.fname f, v₂) :: l₂)) =
      .error (.duplicateField (Field.fname f)) := by
  have hfill : slotFilled f s = true := processEntries_mem_filled f h₁ hmem
  simp only [deBuiltin, processEntries_append, h₁, processEntries, processEntry,
    fieldFromString_fname, applyField_filled v₂ hfill]

/-- Witness for C2: two `name` entries with equal values are rejected. -/
theorem duplicate_field_rejected_witness :
    deBuiltin (.obj [("name", .str "a"), ("name", .str "a")]) =
      .error (.duplicateField "name") :=
  duplicate_field_rejected .name [("name", .str "a")] [] (.str "a") (.str "a")
    ⟨some "a", none, none⟩ rfl (List.mem_singleton.mpr rfl)

/-- C3: inserting a key outside the case-sensitive set
`name`/`pricing`/`at` anywhere into a document that decodes successfully
makes decoding fail with an unknown-field error carrying the offending key
and the accepted-name list `FIELDS`. -/
theorem unknown_field_rejected (k : String) (v : Json)
    (l₁ l₂ : List (String × Json)) (b : Builtin)
    (hok : deBuiltin (.obj (l₁ ++ l₂)) = .ok b)
    (hk : k ∉ FIELDS) :
    deBuiltin (.obj (l₁ ++ (k, v) :: l₂)) = .error (.unknownField k FIELDS) := by
  cases hs : processEntries l₁ initSlots with
  | error e =>
    simp only [deBuiltin, processEntries_append, hs] at hok
    simp at hok
  | ok s₁ =>
    simp only [deBuiltin, processEntries_append, hs, processEntries, processEntry,
      fieldFromString_not_mem hk]

/-- Witness for C3: an `extra` key appended to a valid document. -/
theorem unknown_field_rejected_witness :
    deBuiltin (.obj [("name", .str "foo"), ("pricing", .arr []), ("at", .num 1),
        ("extra", .num 0)]) = .error (.unknownField "extra" FIELDS) :=
  unknown_field_rejected "extra" (.num 0)
    [("name", .str "foo"), ("pricing", .arr []), ("at", .num 1)] [] ⟨"foo", [], 1⟩
    rfl (by decide)

/-- C4: removing all entries of any one required field from a document that
decodes successfully makes decoding fail with a missing-field error naming
exactly that field; no default is substituted. -/
theorem missing_field_rejected (f : Field) (kvs : List (String × Json)) (b : Builtin)
    (hok : deBuiltin (.obj kvs) = .ok b) :
    deBuiltin (.obj (kvs.filter (fun kv => kv.1 ≠ Field.fname f))) =
      .error (.missingField (Field.fname f)) := by
  cases hs : processEntries kvs initSlots with
  | error e =>
    simp only [deBuiltin, hs] at hok
    simp at hok
  | ok s =>
    simp only [deBuiltin, hs] at hok
    have h₁ := processEntries_filter_clear f hs
    have hinit : clearSlot f initSlots = initSlots := by cases f <;> rfl
    rw [hinit] at h₁
    simp only [deBuiltin, h₁]
    exact buildBuiltin_clear f hok

/-- Witness for C4: omitting `pricing` from a valid document. -/
theorem missing_field_rejected_witness :
    deBuiltin (.obj (([("name", .str "foo"), ("pricing", .arr []),
        ("at", .num 1)]).filter (fun kv => kv.1 ≠ Field.fname .pricing))) =
      .error (.missingField "pricing") :=
  missing_field_rejected .pricing
    [("name", .str "foo"), ("pricing", .arr []), ("at", .num 1)] ⟨"foo", [], 1⟩ rfl

/-- C5: a document whose `pricing` value is a bare map rather than a
sequence — reached with the `pricing` slot still unfilled after a
successfully traversed prefix — fails with the shape-mismatch error
"invalid type: map, expected a sequence"; it never succeeds and never
coerces the bare object into a one-element sequence. -/
theorem pricing_bare_object_rejected (l₁ l₂ : List (String × Json))
    (m : List (String × Json)) (s : Slots)
    (h₁ : processEntries l₁ initSlots = .ok s)
    (h₂ : s.pricing? = none) :
    deBuiltin (.obj (l₁ ++ ("pricing", .obj m) :: l₂)) =
      .error (.invalidType "map" "a sequence") := by
  simp only [deBuiltin, processEntries_append, h₁, processEntries, processEntry,
    fieldFromString_pricing, applyField, h₂, deVecPricingAt]

/-- Witness for C5 at the disabled test's document
`{"name": "foo", "pricing": {"price": 1000}, "at": 999}`. -/
theorem pricing_bare_object_rejected_witness :
    deBuiltin (.obj [("name", .str "foo"), ("pricing", .obj [("price", .num 1000)]),
        ("at", .num 999)]) = .error (.invalidType "map" "a sequence") :=
  pricing_bare_object_rejected [("name", .str "foo")] [("at", .num 999)]
    [("price", .num 1000)] ⟨some "foo", none, none⟩ rfl rfl

/-- C6: decoding `{"name": "foo", "pricing": [], "at": 1}` succeeds with
name `"foo"`, an empty pricing sequence, and at equal to 1. -/
theorem decode_empty_pricing :
    deBuiltin (.obj [("name", .str "foo"), ("pricing", .arr []), ("at", .num 1)]) =
      .ok ⟨"foo", [], 1⟩ := rfl

/-- C7: the first error the key/value traversal encounters, in input order,
is the decode result regardless of everything after it; in particular the
post-traversal missing-field checks never run once an unknown-field or
duplicate-field error occurred earlier. -/
theorem first_error_short_circuits (l₁ l₂ : List (String × Json)) (e : DeError)
    (h : processEntries l₁ initSlots = .error e) :
    deBuiltin (.obj (l₁ ++ l₂)) = .error e := by
  simp only [deBuiltin, processEntries_append, h]

/-- Witness for C7: a document whose first entry has an unknown key and
which also misses every required field reports the unknown field. -/
theorem first_error_short_circuits_witness :
    deBuiltin (.obj [("bogus", .num 0), ("name", .str "x")]) =
      .error (.unknownField "bogus" FIELDS) :=
  first_error_short_circuits [("bogus", .num 0)] [("name", .str "x")]
    (.unknownField "bogus" FIELDS) rfl

/-- C8 counterexample: a `pricing` element carrying the unknown sub-field
`extra` decodes successfully — the derived element deserializer ignores
unknown sub-fields instead of failing with an unknown-field error as the
claim states. -/
theorem pricing_element_unknown_subfield_accepted :
    deBuiltin (.obj [("name", .str "a"),
        ("pricing", .arr [.obj [("price", .num 1), ("at", .num 2), ("extra", .num 3)]]),
        ("at", .num 5)]) = .ok ⟨"a", [⟨1, 2⟩], 5⟩ := rfl

/-- C8 (amended): each `pricing` element is validated as a map with the
sub-fields `price` and `at`; a duplicated sub-field fails with a
duplicate-field error and a missing sub-field with a missing-field error,
and an element's error is the document's decode result, but an unknown
sub-field is skipped (serde's default without `deny_unknown_fields`), not
rejected. -/
theorem pricing_element_validation :
    (∀ (n : Nat) (v : Json) (rest : List (String × Json)),
      dePricingAt (.obj (("price", .num n) :: ("price", v) :: rest)) =
        .error (.duplicateField "price")) ∧
    (∀ (n : Nat) (v : Json) (rest : List (String × Json)),
      dePricingAt (.obj (("at", .num n) :: ("at", v) :: rest)) =
        .error (.duplicateField "at")) ∧
    (∀ n : Nat, dePricingAt (.obj [("price", .num n)]) =
      .error (.missingField "at")) ∧
    (∀ n : Nat, dePricingAt (.obj [("at", .num n)]) =
      .error (.missingField "price")) ∧
    (∀ (k : String) (v : Json) (p a : Nat), k ∉ ["price", "at"] →
      dePricingAt (.obj [(k, v), ("price", .num p), ("at", .num a)]) = .ok ⟨p, a⟩) ∧
    (∀ (el : Json) (err : DeError) (tl : List Json) (s : String) (a : Nat),
      dePricingAt el = .error err →
      deBuiltin (.obj [("name", .str s), ("pricing", .arr (el :: tl)),
          ("at", .num a)]) = .error err) := by
  refine ⟨fun n v rest => rfl, fun n v rest => rfl, fun n => rfl, fun n => rfl,
    ?_, ?_⟩
  · intro k v p a hk
    simp only [List.mem_cons, List.not_mem_nil, or_false, not_or] at hk
    obtain ⟨hk1, hk2⟩ := hk
    simp [dePricingAt, paEntries, paEntry, hk1, hk2, paBuild, deU64]
  · intro el err tl s a herr
    simp [deBuiltin, processEntries, processEntry, fieldFromString_name,
      fieldFromString_pricing, fieldFromString_at, applyField, deString, deU64,
      deVecPricingAt, decodeElems, herr, initSlots]

/-- Witness for C8 (amended): an unknown sub-field is skipped and an
element-shape error is the document's error. -/
theorem pricing_element_validation_witness :
    dePricingAt (.obj [("extra", .num 0), ("price", .num 7), ("at", .num 9)]) =
      .ok ⟨7, 9⟩ ∧
    deBuiltin (.obj [("name", .str "x"), ("pricing", .arr [.str "bad"]),
        ("at", .num 0)]) = .error (.invalidType "string" "struct PricingAt") :=
  ⟨pricing_element_validation.2.2.2.2.1 "extra" (.num 0) 7 9 (by decide),
   pricing_element_validation.2.2.2.2.2 (.str "bad")
     (.invalidType "string" "struct PricingAt") [] "x" 0 rfl⟩

/-- C9: for decodable `name`, `pricing`, and `at` values, every order of
the three top-level entries decodes successfully to the same `Builtin`. -/
theorem decode_order_insensitive (vn vp va : Json) (s : String)
    (ps : List PricingAt) (a : Nat)
    (hn : deString vn = .ok s) (hp : deVecPricingAt vp = .ok ps)
    (ha : deU64 va = .ok a) :
    deBuiltin (.obj [("name", vn), ("pricing", vp), ("at", va)]) = .ok ⟨s, ps, a⟩ ∧
    deBuiltin (.obj [("name", vn), ("at", va), ("pricing", vp)]) = .ok ⟨s, ps, a⟩ ∧
    deBuiltin (.obj [("pricing", vp), ("name", vn), ("at", va)]) = .ok ⟨s, ps, a⟩ ∧
    deBuiltin (.obj [("pricing", vp), ("at", va), ("name", vn)]) = .ok ⟨s, ps, a⟩ ∧
    deBuiltin (.obj [("at", va), ("name", vn), ("pricing", vp)]) = .ok ⟨s, ps, a⟩ ∧
    deBuiltin (.obj [("at", va), ("pricing", vp), ("name", vn)]) = .ok ⟨s, ps, a⟩ := by
  refine ⟨?_, ?_, ?_, ?_, ?_, ?_⟩ <;>
    simp [deBuiltin, processEntries, processEntry, fieldFromString_name,
      fieldFromString_pricing, fieldFromString_at, applyField, hn, hp, ha,
      buildBuiltin, initSlots]

/-- Witness for C9: a reversed-order document decodes to the same value as
the canonical order. -/
theorem decode_order_insensitive_witness :
    deBuiltin (.obj [("at", .num 1), ("pricing", .arr []), ("name", .str "foo")]) =
      .ok ⟨"foo", [], 1⟩ :=
  (decode_order_insensitive (.str "foo") (.arr []) (.num 1) "foo" [] 1
    rfl rfl rfl).2.2.2.2.2

/-- C10: a `pricing` element that is a bare price-only map (the legacy
`Pricing` shape, lacking `at`) fails element decoding with a missing-field
error for `at`, and — when the earlier elements decode — that error is the
document's decode result; no `Pricing` value is materialized and no
timestamp is synthesized from the outer `at`. -/
theorem pricing_bare_price_element_rejected (s : String) (a p : Nat)
    (pre post : List Json)
    (hpre : ∀ e ∈ pre, ∃ r, dePricingAt e = .ok r) :
    dePricingAt (.obj [("price", .num p)]) = .error (.missingField "at") ∧
    deBuiltin (.obj [("name", .str s),
        ("pricing", .arr (pre ++ .obj [("price", .num p)] :: post)),
        ("at", .num a)]) = .error (.missingField "at") := by
  have hel : dePricingAt (.obj [("price", .num p)]) =
      .error (.missingField "at") := rfl
  refine ⟨hel, ?_⟩
  have hseq := decodeElems_error_after hel pre post hpre
  simp [deBuiltin, processEntries, processEntry, fieldFromString_name,
    fieldFromString_pricing, fieldFromString_at, applyField, deString, deU64,
    deVecPricingAt, hseq, initSlots]

/-- Witness for C10 at `{"name": "foo", "pricing": [{"price": 1000}], "at": 999}`. -/
theorem pricing_bare_price_element_rejected_witness :
    deBuiltin (.obj [("name", .str "foo"),
        ("pricing", .arr [.obj [("price", .num 1000)]]),
        ("at", .num 999)]) = .error (.missingField "at") :=
  (pricing_bare_price_element_rejected "foo" 999 1000 [] [] (by simp)).2

end Lib
